import Mathlib

/-!
Verification development for the UniVerse-Campus event manager.

The repository core is `services/apiService.ts` (event repository over a
`localStorage` slot) and `components/Calendar.tsx` (42-cell month grid).
We embed both shallowly:

* `YYYY-MM-DD` date strings are modelled as civil dates (`CivilDate`,
  with 0-indexed month as returned by JavaScript `Date.getMonth`);
  `HH:MM` time strings are modelled as minutes of the day (`Nat`) —
  fixed-width `HH:MM` lexicographic string order coincides with the
  numeric order on minutes.
* A JavaScript `Date` value built from a date+time is modelled as the
  epoch-day number times 1440 plus the minutes (`getDateTime`); epoch-day
  arithmetic uses the standard civil-calendar conversion, which is the
  semantics of the `Date(year, month, day)` constructor including its
  month/day normalisation, of `getDay`, and of `new Date(y, m+1, 0).getDate()`.
* `Math.random`-based id generation and possible `localStorage.setItem`
  failure are nondeterministic in the source; each operation therefore
  takes the drawn id string and a `saveOk : Bool` environment flag as
  explicit inputs.  The `catch` block in `saveEventsToLocalStorage`
  swallows a failed write, which `saveEventsToLocalStorage` models by
  returning the previous slot contents when `saveOk = false`.
* Module state (`events` array plus the storage slot) is threaded
  explicitly through `ApiState`; each operation returns its result
  (success value or thrown error message) together with the next state.
-/

/-- Decidable equality for `Except`, used to evaluate operation results
on concrete inputs. -/
instance {ε α : Type} [DecidableEq ε] [DecidableEq α] : DecidableEq (Except ε α) := fun a b =>
  match a, b with
  | .error x, .error y =>
    if h : x = y then isTrue (by rw [h]) else isFalse (by intro hc; cases hc; exact h rfl)
  | .ok x, .ok y =>
    if h : x = y then isTrue (by rw [h]) else isFalse (by intro hc; cases hc; exact h rfl)
  | .error _, .ok _ => isFalse (by intro hc; cases hc)
  | .ok _, .error _ => isFalse (by intro hc; cases hc)

/-- A civil (proleptic-Gregorian) calendar date; `month` is 0-indexed,
matching JavaScript `Date.getMonth`, and `day` matches `getDate`. -/
structure CivilDate where
  year : Int
  month : Nat
  day : Nat
deriving DecidableEq, Repr

/-- JavaScript leap-year rule for the proleptic Gregorian calendar. -/
def isLeapYear (y : Int) : Bool :=
  y % 4 == 0 && (y % 100 != 0 || y % 400 == 0)

/-- Number of days of the (already normalised) 0-indexed month `m` of year `y`. -/
def daysInMonthIdx (y : Int) (m : Nat) : Nat :=
  if m = 1 then (if isLeapYear y then 29 else 28)
  else if m = 3 ∨ m = 5 ∨ m = 8 ∨ m = 10 then 30 else 31

/-- Normalise a (year, possibly out-of-range month) pair the way the
JavaScript `Date(year, month, ...)` constructor does: months overflow
into years. Returns the year and the 0-indexed month in `0..11`. -/
def normYM (year month : Int) : Int × Nat :=
  ((year * 12 + month).ediv 12, ((year * 12 + month).emod 12).toNat)

/-- Epoch-day number of the civil date `y-m-d` (with `m` 1-indexed here,
`d` an arbitrary integer day — out-of-range days shift linearly, which is
exactly the JavaScript `Date` day-normalisation semantics).
Standard civil-from-days conversion arithmetic. -/
def daysFromCivil (y : Int) (m : Nat) (d : Int) : Int :=
  let y' : Int := if m ≤ 2 then y - 1 else y
  let era : Int := y'.ediv 400
  let yoe : Int := y' - era * 400
  let mp : Int := (m : Int) + (if 2 < m then -3 else 9)
  let doy : Int := (153 * mp + 2).ediv 5 + d - 1
  let doe : Int := yoe * 365 + yoe.ediv 4 - yoe.ediv 100 + doy
  era * 146097 + doe - 719468

/-- Civil date of an epoch-day number (inverse conversion). -/
def civilFromDays (z0 : Int) : CivilDate :=
  let z : Int := z0 + 719468
  let era : Int := z.ediv 146097
  let doe : Int := z - era * 146097
  let yoe : Int := (doe - doe.ediv 1460 + doe.ediv 36524 - doe.ediv 146096).ediv 365
  let y : Int := yoe + era * 400
  let doy : Int := doe - (365 * yoe + yoe.ediv 4 - yoe.ediv 100)
  let mp : Int := (5 * doy + 2).ediv 153
  let d : Int := doy - (153 * mp + 2).ediv 5 + 1
  let m : Int := mp + (if mp < 10 then 3 else -9)
  ⟨if m ≤ 2 then y + 1 else y, (m - 1).toNat, d.toNat⟩

/-- The JavaScript `new Date(year, month, day)` constructor (local
midnight), as the civil date it denotes after normalisation. -/
def mkJsDate (year month day : Int) : CivilDate :=
  let ym := normYM year month
  civilFromDays (daysFromCivil ym.1 (ym.2 + 1) day)

/-- An event record (`types.ts` `Event`); `date` is the parsed
`YYYY-MM-DD` string, `startTime`/`endTime` the parsed `HH:MM` strings as
minutes of the day. -/
structure Event where
  id : String
  name : String
  description : String
  date : CivilDate
  startTime : Nat
  endTime : Nat
  location : String
  capacity : Int
  registeredParticipants : Int
  organizer : String
deriving DecidableEq, Repr

/-- `types.ts` `NewEvent`: an `Event` without `id` and
`registeredParticipants`. -/
structure NewEvent where
  name : String
  description : String
  date : CivilDate
  startTime : Nat
  endTime : Nat
  location : String
  capacity : Int
  organizer : String
deriving DecidableEq, Repr

/-- `getDateTime(date, time)`: the `Date` built from a date and a time,
as a totally ordered timestamp (epoch minutes). -/
def getDateTime (d : CivilDate) (t : Nat) : Int :=
  daysFromCivil d.year (d.month + 1) d.day * 1440 + t

/-- Timestamp of a candidate's start (`newEventStart`). -/
def newStart (ne : NewEvent) : Int := getDateTime ne.date ne.startTime

/-- Timestamp of a candidate's end (`newEventEnd`). -/
def newEnd (ne : NewEvent) : Int := getDateTime ne.date ne.endTime

/-- The clash test of `createEvent` for one existing event:
`newEventStart < existingEventEnd && newEventEnd > existingEventStart`. -/
def overlapB (ne : NewEvent) (e : Event) : Bool :=
  decide (newStart ne < getDateTime e.date e.endTime) &&
    decide (newEnd ne > getDateTime e.date e.startTime)

/-- Repository state: the in-memory `events` array together with the
contents of the `localStorage` slot under `universe_events`. -/
structure ApiState where
  events : List Event
  storage : List Event
deriving DecidableEq, Repr

/-- `saveEventsToLocalStorage`: attempts to write `current` into the
slot; a failed write (`saveOk = false`) is caught and merely logged, so
the slot keeps its previous contents. -/
def saveEventsToLocalStorage (saveOk : Bool) (slot current : List Event) : List Event :=
  if saveOk then current else slot

/-- The event object `createEvent` constructs on success:
`{ ...newEvent, id: generateId(), registeredParticipants: 0 }`. -/
def eventOfNew (ne : NewEvent) (nid : String) : Event :=
  { id := nid
    name := ne.name
    description := ne.description
    date := ne.date
    startTime := ne.startTime
    endTime := ne.endTime
    location := ne.location
    capacity := ne.capacity
    registeredParticipants := 0
    organizer := ne.organizer }

/-- Error message thrown on a detected clash (the source interpolates the
conflicting event's name and times; only the conflicting identity matters
here). -/
def clashMsg (e : Event) : String :=
  "Clash detected: Event \"" ++ e.name ++ "\" overlaps with the proposed time."

/-- The invalid-time-span error message of `createEvent`. -/
def validationMsg : String := "Event end time must be after start time."

/-- `apiService.createEvent`: validates the time span, scans all existing
events for a clash, and on success appends the new event and persists.
`nid` is the string drawn by `generateId()`, `saveOk` tells whether the
storage write succeeds. Returns the thrown error or the created event,
together with the state after the call. -/
def createEvent (nid : String) (saveOk : Bool) (s : ApiState) (ne : NewEvent) :
    Except String Event × ApiState :=
  if newEnd ne ≤ newStart ne then (.error validationMsg, s)
  else
    match s.events.find? (fun e => overlapB ne e) with
    | some e => (.error (clashMsg e), s)
    | none =>
      let ev := eventOfNew ne nid
      let events' := s.events ++ [ev]
      (.ok ev, ⟨events', saveEventsToLocalStorage saveOk s.storage events'⟩)

/-- `apiService.registerForEvent`: looks up the event by id
(`findIndex`, i.e. the first index whose id matches; `-1`/not-found is
the `¬ i < length` case), fails when at capacity, otherwise increments
the participant count and persists. -/
def registerForEvent (saveOk : Bool) (s : ApiState) (eid : String) :
    Except String Unit × ApiState :=
  let i := s.events.findIdx (fun e => e.id == eid)
  if h : i < s.events.length then
    let e := s.events.get ⟨i, h⟩
    if e.capacity ≤ e.registeredParticipants then (.error "Event is full.", s)
    else
      let events' := s.events.set i
        { e with registeredParticipants := e.registeredParticipants + 1 }
      (.ok (), ⟨events', saveEventsToLocalStorage saveOk s.storage events'⟩)
  else (.error "Event not found.", s)

/-- A `Partial<Event>` value: each field optionally supplied. -/
structure EventPatch where
  id : Option String := none
  name : Option String := none
  description : Option String := none
  date : Option CivilDate := none
  startTime : Option Nat := none
  endTime : Option Nat := none
  location : Option String := none
  capacity : Option Int := none
  registeredParticipants : Option Int := none
  organizer : Option String := none
deriving DecidableEq, Repr

/-- The spread merge `{ ...events[eventIndex], ...updates }`. -/
def applyPatch (e : Event) (u : EventPatch) : Event :=
  { id := u.id.getD e.id
    name := u.name.getD e.name
    description := u.description.getD e.description
    date := u.date.getD e.date
    startTime := u.startTime.getD e.startTime
    endTime := u.endTime.getD e.endTime
    location := u.location.getD e.location
    capacity := u.capacity.getD e.capacity
    registeredParticipants := u.registeredParticipants.getD e.registeredParticipants
    organizer := u.organizer.getD e.organizer }

/-- `apiService.updateEvent`: merges the supplied fields over the stored
event (no validation of any kind) and persists. -/
def updateEvent (saveOk : Bool) (s : ApiState) (eid : String) (u : EventPatch) :
    Except String Event × ApiState :=
  let i := s.events.findIdx (fun e => e.id == eid)
  if h : i < s.events.length then
    let e' := applyPatch (s.events.get ⟨i, h⟩) u
    let events' := s.events.set i e'
    (.ok e', ⟨events', saveEventsToLocalStorage saveOk s.storage events'⟩)
  else (.error "Event not found.", s)

/-- One repository call together with its environment inputs (drawn id,
storage-write outcome). -/
inductive Op where
  | create (nid : String) (saveOk : Bool) (ne : NewEvent)
  | register (saveOk : Bool) (eid : String)
  | update (saveOk : Bool) (eid : String) (u : EventPatch)
deriving Repr

/-- State after one call (a thrown call leaves the state as the code
left it, which for every failing path is the pre-call state). -/
def step (s : ApiState) : Op → ApiState
  | .create nid saveOk ne => (createEvent nid saveOk s ne).2
  | .register saveOk eid => (registerForEvent saveOk s eid).2
  | .update saveOk eid u => (updateEvent saveOk s eid u).2

/-- Run a sequence of calls. -/
def runOps (s : ApiState) : List Op → ApiState
  | [] => s
  | op :: rest => runOps (step s op) rest

/-- The empty initial state (empty collection, empty slot). -/
def initState : ApiState := ⟨[], []⟩

/-- Reachability from the empty collection via repository calls. -/
def Reachable (s : ApiState) : Prop := ∃ ops : List Op, runOps initState ops = s

/-- A cell of the month grid (`types.ts` `CalendarDay`). -/
structure CalendarDay where
  date : CivilDate
  isCurrentMonth : Bool
  isToday : Bool
  events : List Event
deriving DecidableEq, Repr

/-- `daysInMonth(year, month)` of `Calendar.tsx`:
`new Date(year, month + 1, 0).getDate()`, i.e. the length of the
(normalised) month. -/
def daysInMonth (year month : Int) : Nat :=
  let ym := normYM year month
  daysInMonthIdx ym.1 ym.2

/-- `firstDayOfMonth(year, month)` of `Calendar.tsx`:
`new Date(year, month, 1).getDay()` (0 = Sunday … 6 = Saturday;
epoch day 0, 1970-01-01, was a Thursday). -/
def firstDayOfMonth (year month : Int) : Nat :=
  let ym := normYM year month
  ((daysFromCivil ym.1 (ym.2 + 1) 1 + 4).emod 7).toNat

/-- A leading filler cell: `new Date(year, month, i - prevMonthDaysToShow + 1)`
with `isCurrentMonth = false`. -/
def leadCell (year month : Int) (prev i : Nat) : CalendarDay :=
  { date := mkJsDate year month ((i : Int) - (prev : Int) + 1)
    isCurrentMonth := false
    isToday := false
    events := [] }

/-- A current-month cell for day `i + 1`, flagged as today when its date
equals the given `today`. -/
def curCell (year month : Int) (today : CivilDate) (i : Nat) : CalendarDay :=
  { date := mkJsDate year month ((i : Int) + 1)
    isCurrentMonth := true
    isToday := decide (mkJsDate year month ((i : Int) + 1) = today)
    events := [] }

/-- A trailing filler cell: `new Date(year, month + 1, i)` with
`isCurrentMonth = false`. -/
def trailCell (year month : Int) (i : Nat) : CalendarDay :=
  { date := mkJsDate year (month + 1) ((i : Int) + 1)
    isCurrentMonth := false
    isToday := false
    events := [] }

/-- The `calendarDays` useMemo of `Calendar.tsx`: leading filler cells up
to the Monday-first weekday of day 1, the month's days, then trailing
filler cells up to 42 (`if (remainingCells > 0)` guard as in the source). -/
def calendarCells (year month : Int) (today : CivilDate) : List CalendarDay :=
  let totalDays := daysInMonth year month
  let firstDay := firstDayOfMonth year month
  let prev := if firstDay = 0 then 6 else firstDay - 1
  let leading := (List.range prev).map (fun i => leadCell year month prev i)
  let current := (List.range totalDays).map (fun i => curCell year month today i)
  let remaining := 42 - (prev + totalDays)
  let trailing :=
    if 0 < remaining then (List.range remaining).map (fun i => trailCell year month i) else []
  leading ++ current ++ trailing

/-- Events-bucketing of the `useEffect` in `Calendar.tsx`: each event is
pushed onto the first cell whose date matches (`updatedCalendarDays.find`),
then each cell's bucket is sorted by `startTime`
(`a.startTime.localeCompare(b.startTime)` — numeric order on minutes). -/
def fillDay (cells : List CalendarDay) (events : List Event) (i : Nat)
    (day : CalendarDay) : CalendarDay :=
  { day with
    events := List.insertionSort (fun a b => a.startTime ≤ b.startTime)
      (events.filter (fun e =>
        cells.findIdx (fun d => decide (d.date = e.date)) == i)) }

/-- Apply `fillDay` to every cell, tracking the cell index. -/
def fillCells (cells : List CalendarDay) (events : List Event) :
    Nat → List CalendarDay → List CalendarDay
  | _, [] => []
  | i, day :: rest => fillDay cells events i day :: fillCells cells events (i + 1) rest

/-- The grid after the `useEffect`: buckets reset, events distributed to
the first matching cell, each bucket sorted by start time. -/
def updatedCalendarDays (year month : Int) (today : CivilDate)
    (events : List Event) : List CalendarDay :=
  let cells := calendarCells year month today
  fillCells cells events 0 cells

/-- `currentDayEvents` of the `useEffect`: the bucket of the first
current-month cell whose date is today, or `[]` when there is none. -/
def todayCellEvents (year month : Int) (today : CivilDate)
    (events : List Event) : List Event :=
  (((updatedCalendarDays year month today events).find?
      (fun day => day.isCurrentMonth && decide (day.date = today))).map
    CalendarDay.events).getD []

/-- The bucket of the first current-month cell
(`updatedCalendarDays.filter(day => day.isCurrentMonth)[0]?.events || []`). -/
def firstCurrentCellEvents (year month : Int) (today : CivilDate)
    (events : List Event) : List Event :=
  ((((updatedCalendarDays year month today events).filter
      (fun day => day.isCurrentMonth)).head?).map CalendarDay.events).getD []

/-- The default `selectedDayEvents` set by the `useEffect`: today's
bucket when it is nonempty, otherwise the first current-month cell's
bucket. -/
def selectedDefault (year month : Int) (today : CivilDate)
    (events : List Event) : List Event :=
  let currentDayEvents := todayCellEvents year month today events
  if 0 < currentDayEvents.length then currentDayEvents
  else firstCurrentCellEvents year month today events

/-! ### Concrete fixtures used by witnesses and counterexamples -/

/-- 1970-01-01, a fixture date. -/
def sampleDate : CivilDate := ⟨1970, 0, 1⟩

/-- A well-formed candidate, 01:00–02:00 on 1970-01-01, capacity 5. -/
def ne0 : NewEvent := ⟨"Alpha", "da", sampleDate, 60, 120, "Hall", 5, "Org"⟩

/-- A second candidate on the same date, 02:00–03:00 (back to back with `ne0`). -/
def ne1 : NewEvent := ⟨"Beta", "db", sampleDate, 120, 180, "Hall", 5, "Org"⟩

/-- The stored form of `ne0` under id `a1`. -/
def ev0 : Event := eventOfNew ne0 "a1"

/-- A state holding just `ev0`, both in memory and in the slot. -/
def st0 : ApiState := ⟨[ev0], [ev0]⟩

/-! ### Arithmetic helpers -/

/-- On a shared date the timestamp order is the order of the times. -/
theorem getDateTime_lt_iff (d : CivilDate) (t1 t2 : Nat) :
    getDateTime d t1 < getDateTime d t2 ↔ t1 < t2 := by
  unfold getDateTime
  omega

/-- `createEvent` either leaves the state untouched or returns a created
event: every thrown path returns the pre-call state. -/
theorem createEvent_state_cases (nid : String) (saveOk : Bool) (s : ApiState)
    (ne : NewEvent) :
    (createEvent nid saveOk s ne).2 = s ∨
      ∃ ev, (createEvent nid saveOk s ne).1 = .ok ev := by
  unfold createEvent
  split
  · exact Or.inl rfl
  · split
    · exact Or.inl rfl
    · exact Or.inr ⟨_, rfl⟩

/-! ### C4 — half-open overlap predicate -/

/-- C4: the clash test declares an overlap iff the candidate starts
before the existing event ends and the existing event starts before the
candidate ends; consequently two events on the same date that merely
touch (one's start equals the other's end) are never declared a clash. -/
theorem overlapB_iff_and_halfOpen (ne : NewEvent) (e : Event) :
    (overlapB ne e = true ↔
      newStart ne < getDateTime e.date e.endTime ∧
        getDateTime e.date e.startTime < newEnd ne) ∧
    (ne.date = e.date →
      ne.startTime = e.endTime ∨ ne.endTime = e.startTime →
      overlapB ne e = false) := by
  constructor
  · simp [overlapB, GT.gt]
  · intro hd htouch
    simp only [overlapB, Bool.and_eq_false_iff, decide_eq_false_iff_not, not_lt]
    unfold newStart newEnd getDateTime
    rw [hd]
    rcases htouch with h | h
    · exact Or.inl (by omega)
    · exact Or.inr (by omega)

/-- Witness for C4 at a touching pair: `ne1` starts exactly when `ev0`
ends, and the validator does not flag the pair. -/
theorem overlapB_iff_and_halfOpen_witness : overlapB ne1 ev0 = false :=
  (overlapB_iff_and_halfOpen ne1 ev0).2 rfl (Or.inl rfl)

/-! ### C5 — invalid time span rejected first, failures mutate nothing -/

/-- C5: a candidate whose end does not lie strictly after its start is
always rejected with the validation error (before any clash comparison —
the result is the validation error for every state, clashing or not),
and every failing `createEvent` call leaves the collection and the
storage slot exactly as they were. -/
theorem createEvent_validation_and_no_partial_commit (nid : String) (saveOk : Bool)
    (s : ApiState) (ne : NewEvent) :
    (ne.endTime ≤ ne.startTime →
      createEvent nid saveOk s ne = (.error validationMsg, s)) ∧
    (∀ msg, (createEvent nid saveOk s ne).1 = .error msg →
      (createEvent nid saveOk s ne).2 = s) := by
  constructor
  · intro h
    have hts : newEnd ne ≤ newStart ne := by
      unfold newEnd newStart getDateTime
      omega
    simp [createEvent, hts]
  · intro msg hmsg
    rcases createEvent_state_cases nid saveOk s ne with h | ⟨ev, hok⟩
    · exact h
    · rw [hok] at hmsg
      cases hmsg

/-- Witness for C5: a reversed candidate is rejected with the validation
error and the state is returned unchanged. -/
theorem createEvent_validation_witness :
    createEvent "zz" true st0 ⟨"Rev", "d", sampleDate, 120, 60, "Hall", 5, "Org"⟩ =
      (.error validationMsg, st0) ∧ st0.events = [ev0] :=
  ⟨(createEvent_validation_and_no_partial_commit "zz" true st0
      ⟨"Rev", "d", sampleDate, 120, 60, "Hall", 5, "Org"⟩).1 (by decide), rfl⟩

/-! ### C7 — registration at capacity fails and changes nothing -/

/-- C7: when the event found for the given id is at capacity
(`registeredParticipants = capacity`), `registerForEvent` throws
`Event is full.` and the state — in particular that event's count — is
unchanged. -/
theorem registerForEvent_full (saveOk : Bool) (s : ApiState) (eid : String)
    (i : Nat) (h : i < s.events.length)
    (hidx : s.events.findIdx (fun e => e.id == eid) = i)
    (hfull : (s.events.get ⟨i, h⟩).registeredParticipants =
      (s.events.get ⟨i, h⟩).capacity) :
    registerForEvent saveOk s eid = (.error "Event is full.", s) := by
  unfold registerForEvent
  simp only [hidx]
  rw [dif_pos h, if_pos (le_of_eq hfull.symm)]

/-- Witness for C7: registering for a full event (capacity 5, count 5)
fails with `Event is full.` and returns the state unchanged. -/
theorem registerForEvent_full_witness :
    registerForEvent true ⟨[{ ev0 with registeredParticipants := 5 }], []⟩ "a1" =
      (.error "Event is full.", ⟨[{ ev0 with registeredParticipants := 5 }], []⟩) :=
  registerForEvent_full true ⟨[{ ev0 with registeredParticipants := 5 }], []⟩ "a1"
    0 (by decide) (by decide) (by decide)

/-! ### C3 — durability of successful mutations -/

/-- C3 as stated is false: a failed storage write is caught and logged
inside `saveEventsToLocalStorage`, so a `createEvent` whose write fails
still reports success while the slot keeps its old contents. -/
theorem persisted_on_success_counterexample :
    ¬ ((∀ nid saveOk s ne ev s', createEvent nid saveOk s ne = (.ok ev, s') →
          s'.storage = s'.events) ∧
       (∀ saveOk s eid s', registerForEvent saveOk s eid = (.ok (), s') →
          s'.storage = s'.events)) := by
  intro hP
  have h := hP.1 "a1" false initState ne0 ev0
    ⟨[ev0], []⟩ (by decide)
  exact absurd h (by decide)

/-- C3 amended: the persistence write is made synchronously before
success is reported, so whenever the write itself succeeds
(`saveOk = true`) a successful `createEvent` or `registerForEvent`
returns with the slot holding exactly the new collection. -/
theorem persisted_on_success_amended :
    (∀ nid s ne ev s', createEvent nid true s ne = (.ok ev, s') →
      s'.storage = s'.events) ∧
    (∀ s eid s', registerForEvent true s eid = (.ok (), s') →
      s'.storage = s'.events) := by
  constructor
  · intro nid s ne ev s' h
    unfold createEvent at h
    split at h
    · cases h
    · split at h
      · cases h
      · rw [Prod.mk.injEq] at h
        rw [← h.2]
        simp [saveEventsToLocalStorage]
  · intro s eid s' h
    simp only [registerForEvent] at h
    split at h
    · split at h
      · cases h
      · rw [Prod.mk.injEq] at h
        rw [← h.2]
        simp [saveEventsToLocalStorage]
    · cases h

/-- Witness for the amended C3: a successful create with a succeeding
write leaves slot = collection. -/
theorem persisted_on_success_amended_witness :
    (⟨[ev0], [ev0]⟩ : ApiState).storage = (⟨[ev0], [ev0]⟩ : ApiState).events :=
  persisted_on_success_amended.1 "a1" initState ne0 ev0 ⟨[ev0], [ev0]⟩ (by decide)

/-! ### C6 — id freshness -/

/-- C6: `generateId` draws 7 random base-36 characters and is never
checked against existing ids, so a draw equal to a stored id is accepted:
the successful creation below returns an event whose id duplicates an
existing event's id (the count is still initialised to 0). The claim —
and `generateId`'s own doc comment, which promises a unique id — require
freshness, so this is a code bug rather than a spec error. -/
theorem createEvent_duplicate_id_eval :
    (createEvent "a1" true st0 ne1).1 = .ok (eventOfNew ne1 "a1") ∧
    (eventOfNew ne1 "a1").id ∈ st0.events.map Event.id ∧
    (eventOfNew ne1 "a1").registeredParticipants = 0 := by
  decide

/-! ### State-machine helpers -/

/-- Setting an index to the element already there is the identity. -/
theorem set_get?_self {α : Type} (l : List α) (i : Nat) (a : α)
    (h : l.get? i = some a) : l.set i a = l := by
  induction l generalizing i with
  | nil => rfl
  | cons x xs ih =>
    cases i with
    | zero =>
      cases h
      rfl
    | succ j =>
      simp only [List.set]
      rw [ih j h]

/-- The scheduling-relevant projection of an event. -/
def schedOf (e : Event) : CivilDate × Nat × Nat := (e.date, e.startTime, e.endTime)

/-- Two (distinct positions of) events with the same date have
non-overlapping half-open `[startTime, endTime)` intervals. -/
def sameDateNoOverlap (a b : Event) : Prop :=
  a.date = b.date → ¬ (a.startTime < b.endTime ∧ b.startTime < a.endTime)

/-- `sameDateNoOverlap` only reads the scheduling projection. -/
theorem sameDateNoOverlap_of_schedOf_eq {a b a' b' : Event}
    (ha : schedOf a = schedOf a') (hb : schedOf b = schedOf b')
    (h : sameDateNoOverlap a b) : sameDateNoOverlap a' b' := by
  unfold schedOf at ha hb
  unfold sameDateNoOverlap at h ⊢
  rw [Prod.mk.injEq, Prod.mk.injEq] at ha hb
  rw [← ha.1, ← hb.1, ← ha.2.1, ← hb.2.1, ← ha.2.2, ← hb.2.2]
  exact h

/-- Replacing a list element by one with the same scheduling projection
preserves pairwise schedule compatibility. -/
theorem pairwise_set_schedOf {l : List Event} {i : Nat} {e e' : Event}
    (hget : l.get? i = some e) (hsched : schedOf e' = schedOf e)
    (h : l.Pairwise sameDateNoOverlap) :
    (l.set i e').Pairwise sameDateNoOverlap := by
  induction l generalizing i with
  | nil => simp
  | cons x xs ih =>
    rcases List.pairwise_cons.mp h with ⟨hx, hxs⟩
    cases i with
    | zero =>
      cases hget
      refine List.pairwise_cons.mpr ⟨?_, hxs⟩
      intro b hb
      exact sameDateNoOverlap_of_schedOf_eq hsched.symm rfl (hx b hb)
    | succ j =>
      have hget' : xs.get? j = some e := hget
      simp only [List.set]
      refine List.pairwise_cons.mpr ⟨?_, ih hget' hxs⟩
      intro b hb
      rcases List.mem_or_eq_of_mem_set hb with hmem | rfl
      · exact hx b hmem
      · exact sameDateNoOverlap_of_schedOf_eq rfl hsched.symm
          (hx e (List.get?_mem hget'))

/-- Bound on the registration count: `0 ≤ count ≤ capacity` for every
stored event. -/
def CapacityInv (s : ApiState) : Prop :=
  ∀ e ∈ s.events, 0 ≤ e.registeredParticipants ∧
    e.registeredParticipants ≤ e.capacity

/-- Same-date pairwise non-overlap of the stored events. -/
def SchedInv (s : ApiState) : Prop := s.events.Pairwise sameDateNoOverlap

/-- Operations allowed by the amended C1: no `updateEvent`, and created
candidates carry a non-negative capacity (the code validates neither). -/
def opOkC1 : Op → Bool
  | .create _ _ ne => decide (0 ≤ ne.capacity)
  | .register _ _ => true
  | .update _ _ _ => false

/-- Operations allowed by the amended C2: anything except `updateEvent`
(which merges fields without re-running the clash validator). -/
def opOkC2 : Op → Bool
  | .update _ _ _ => false
  | _ => true

/-- Operations considered by C10: only `register` and `update` calls. -/
def opRegOrUpd : Op → Bool
  | .create _ _ _ => false
  | _ => true

/-- Operations allowed by the amended C10: `register`, and `update`
whose patch does not supply the `id` field. -/
def opKeepsId : Op → Bool
  | .create _ _ _ => false
  | .register _ _ => true
  | .update _ _ u => u.id == none

/-- One allowed step preserves the capacity bound. -/
theorem step_capacityInv (s : ApiState) (op : Op) (hop : opOkC1 op = true)
    (hs : CapacityInv s) : CapacityInv (step s op) := by
  cases op with
  | update saveOk eid u => cases hop
  | create nid saveOk ne =>
    simp only [opOkC1, decide_eq_true_eq] at hop
    simp only [step, createEvent]
    split
    · exact hs
    · split
      · exact hs
      · intro e he
        simp only [List.mem_append, List.mem_singleton] at he
        rcases he with h | rfl
        · exact hs e h
        · exact ⟨le_refl 0, hop⟩
  | register saveOk eid =>
    simp only [step, registerForEvent]
    split
    · rename_i hlt
      split
      · exact hs
      · rename_i hnotfull
        intro e he
        simp only at he
        rcases List.mem_or_eq_of_mem_set he with h | rfl
        · exact hs e h
        · have horig := hs _ (List.get_mem s.events _ hlt)
          simp only [not_le] at hnotfull
          dsimp only
          omega
    · exact hs

/-- One allowed step preserves pairwise schedule compatibility. -/
theorem step_schedInv (s : ApiState) (op : Op) (hop : opOkC2 op = true)
    (hs : SchedInv s) : SchedInv (step s op) := by
  cases op with
  | update saveOk eid u => cases hop
  | create nid saveOk ne =>
    simp only [step]
    unfold SchedInv createEvent
    split
    · exact hs
    · split
      · exact hs
      · rename_i hfind
        refine List.pairwise_append.mpr ⟨hs, List.pairwise_singleton _ _, ?_⟩
        intro a ha b hb
        rcases List.mem_singleton.mp hb with rfl
        have hno := List.find?_eq_none.mp hfind a ha
        simp only [Bool.not_eq_true] at hno
        simp only [overlapB, Bool.and_eq_false_iff, decide_eq_false_iff_not,
          not_lt] at hno
        intro hd hcon
        unfold newStart newEnd getDateTime at hno
        simp only [eventOfNew] at hd hcon
        rw [hd] at hno
        rcases hno with h | h <;> omega
  | register saveOk eid =>
    unfold SchedInv at hs ⊢
    simp only [step, registerForEvent]
    split
    · rename_i hlt
      split
      · exact hs
      · exact pairwise_set_schedOf (List.get?_eq_get hlt) rfl hs
    · exact hs

/-- Running allowed operations preserves the capacity bound. -/
theorem runOps_capacityInv (ops : List Op) (s : ApiState)
    (hops : ∀ op ∈ ops, opOkC1 op = true) (hs : CapacityInv s) :
    CapacityInv (runOps s ops) := by
  induction ops generalizing s with
  | nil => exact hs
  | cons op rest ih =>
    exact ih (step s op) (fun o ho => hops o (List.mem_cons_of_mem op ho))
      (step_capacityInv s op (hops op (List.mem_cons_self op rest)) hs)

/-- Running allowed operations preserves schedule compatibility. -/
theorem runOps_schedInv (ops : List Op) (s : ApiState)
    (hops : ∀ op ∈ ops, opOkC2 op = true) (hs : SchedInv s) :
    SchedInv (runOps s ops) := by
  induction ops generalizing s with
  | nil => exact hs
  | cons op rest ih =>
    exact ih (step s op) (fun o ho => hops o (List.mem_cons_of_mem op ho))
      (step_schedInv s op (hops op (List.mem_cons_self op rest)) hs)

/-! ### C1 — capacity bound -/

/-- A patch setting only `registeredParticipants`, to 9. -/
def regPatch : EventPatch := { registeredParticipants := some 9 }

/-- A candidate with negative capacity (nothing in the code rejects it). -/
def neNeg : NewEvent := ⟨"Gamma", "dg", ⟨1970, 0, 2⟩, 60, 120, "Hall", -1, "Org"⟩

/-- C1 as stated is false: `updateEvent` merges arbitrary fields with no
validation, so an update can push the count past the capacity; and
`createEvent` never checks the candidate's capacity, so a negative
capacity yields `0 = registeredParticipants > capacity` at creation. -/
theorem capacity_invariant_counterexample :
    (¬ ∀ s, Reachable s → ∀ e ∈ s.events,
        0 ≤ e.registeredParticipants ∧ e.registeredParticipants ≤ e.capacity) ∧
    (∃ e ∈ (runOps initState [Op.create "g1" true neNeg]).events,
        e.registeredParticipants = 0 ∧ e.capacity < 0) := by
  constructor
  · intro hP
    have hreach : Reachable (runOps initState
        [Op.create "a1" true ne0, Op.update true "a1" regPatch]) := ⟨_, rfl⟩
    have h := hP _ hreach (applyPatch ev0 regPatch) (by decide)
    exact absurd h.2 (by decide)
  · exact ⟨eventOfNew neNeg "g1", by decide, by decide⟩

/-- C1 amended: excluding `updateEvent` (which validates nothing), and
restricted to created candidates with non-negative capacity (which the
code also never checks), every reachable state satisfies
`0 ≤ registeredParticipants ≤ capacity` for every stored event. -/
theorem capacity_invariant_amended (ops : List Op)
    (hops : ∀ op ∈ ops, opOkC1 op = true) :
    ∀ e ∈ (runOps initState ops).events,
      0 ≤ e.registeredParticipants ∧ e.registeredParticipants ≤ e.capacity :=
  runOps_capacityInv ops initState hops (by intro e he; cases he)

/-- The event of `ne0` after one successful registration. -/
def evReg1 : Event := { ev0 with registeredParticipants := 1 }

/-- Witness for the amended C1 after a create followed by a register. -/
theorem capacity_invariant_amended_witness :
    0 ≤ evReg1.registeredParticipants ∧
      evReg1.registeredParticipants ≤ evReg1.capacity :=
  capacity_invariant_amended [Op.create "a1" true ne0, Op.register true "a1"]
    (by decide) evReg1 (by decide)

/-! ### C2 — same-date non-overlap -/

/-- A patch setting only `startTime`, to 01:30. -/
def timePatch : EventPatch := { startTime := some 90 }

/-- C2 as stated is false: `updateEvent` never re-runs the clash
validator, so updating a back-to-back event's start time into its
neighbour produces two stored events on the same date with overlapping
half-open intervals. -/
theorem no_overlap_invariant_counterexample :
    ¬ ∀ s, Reachable s → s.events.Pairwise sameDateNoOverlap := by
  intro hP
  have h := hP (runOps initState [Op.create "a1" true ne0,
    Op.create "b1" true ne1, Op.update true "b1" timePatch]) ⟨_, rfl⟩
  rw [show (runOps initState [Op.create "a1" true ne0, Op.create "b1" true ne1,
      Op.update true "b1" timePatch]).events =
      [ev0, applyPatch (eventOfNew ne1 "b1") timePatch] from by decide] at h
  have h2 := (List.pairwise_cons.mp h).1
    (applyPatch (eventOfNew ne1 "b1") timePatch) (List.mem_singleton.mpr rfl)
  exact h2 (by decide) ⟨by decide, by decide⟩

/-- C2 amended: excluding `updateEvent`, every reachable state has
pairwise non-overlapping `[startTime, endTime)` intervals among
same-date events — `createEvent` checks every candidate against all
stored events and `registerForEvent` never touches the schedule. -/
theorem no_overlap_invariant_amended (ops : List Op)
    (hops : ∀ op ∈ ops, opOkC2 op = true) :
    (runOps initState ops).events.Pairwise sameDateNoOverlap :=
  runOps_schedInv ops initState hops List.Pairwise.nil

/-- Witness for the amended C2 after two back-to-back creations. -/
theorem no_overlap_invariant_amended_witness :
    (runOps initState [Op.create "a1" true ne0,
      Op.create "b1" true ne1]).events.Pairwise sameDateNoOverlap :=
  no_overlap_invariant_amended
    [Op.create "a1" true ne0, Op.create "b1" true ne1] (by decide)

/-! ### C10 — id immutability -/

/-- A patch setting only `id`, to `zz`. -/
def idPatch : EventPatch := { id := some "zz" }

/-- C10 as stated is false: `updateEvent` spreads the caller's partial
object over the stored record, and `Partial<Event>` includes `id`, so an
update that supplies `id` overwrites the id assigned at creation. -/
theorem id_immutable_counterexample :
    ¬ ∀ (s : ApiState) (ops : List Op), (∀ op ∈ ops, opRegOrUpd op = true) →
        (runOps s ops).events.map Event.id = s.events.map Event.id := by
  intro hP
  have h := hP ⟨[ev0], [ev0]⟩ [Op.update true "a1" idPatch] (by decide)
  exact absurd h (by decide)

/-- A `register` or id-free `update` step keeps every stored id. -/
theorem step_map_id (s : ApiState) (op : Op) (hop : opKeepsId op = true) :
    (step s op).events.map Event.id = s.events.map Event.id := by
  cases op with
  | create nid saveOk ne => cases hop
  | register saveOk eid =>
    simp only [step, registerForEvent]
    split
    · rename_i hlt
      split
      · rfl
      · dsimp only
        rw [List.map_set]
        apply set_get?_self
        rw [List.get?_map, List.get?_eq_get hlt]
        rfl
    · rfl
  | update saveOk eid u =>
    simp only [opKeepsId] at hop
    have hnone : u.id = none := by
      cases hu : u.id with
      | none => rfl
      | some x => rw [hu] at hop; cases hop
    simp only [step, updateEvent]
    split
    · rename_i hlt
      dsimp only
      rw [List.map_set]
      apply set_get?_self
      rw [List.get?_map, List.get?_eq_get hlt]
      simp [applyPatch, hnone]
    · rfl

/-- C10 amended: under `registerForEvent` and under `updateEvent` calls
whose patch does not supply the `id` field, every stored event keeps the
id it was created with (the listing of stored ids is invariant). -/
theorem id_immutable_amended (s : ApiState) (ops : List Op)
    (hops : ∀ op ∈ ops, opKeepsId op = true) :
    (runOps s ops).events.map Event.id = s.events.map Event.id := by
  induction ops generalizing s with
  | nil => rfl
  | cons op rest ih =>
    have h1 := ih (step s op) (fun o ho => hops o (List.mem_cons_of_mem op ho))
    have h2 := step_map_id s op (hops op (List.mem_cons_self op rest))
    exact h1.trans h2

/-- Witness for the amended C10: a registration leaves the stored ids
unchanged. -/
theorem id_immutable_amended_witness :
    (runOps st0 [Op.register true "a1"]).events.map Event.id =
      st0.events.map Event.id :=
  id_immutable_amended st0 [Op.register true "a1"] (by decide)

/-! ### Calendar grid lemmas -/

/-- Ordering events by start time is decidable. -/
instance : DecidableRel (fun a b : Event => a.startTime ≤ b.startTime) :=
  fun a b => Nat.decLe a.startTime b.startTime

/-- Ordering events by start time is total. -/
instance : IsTotal Event (fun a b : Event => a.startTime ≤ b.startTime) :=
  ⟨fun a b => Nat.le_total a.startTime b.startTime⟩

/-- Ordering events by start time is transitive. -/
instance : IsTrans Event (fun a b : Event => a.startTime ≤ b.startTime) :=
  ⟨fun _ _ _ h1 h2 => Nat.le_trans h1 h2⟩

/-- Bucketing does not change the number of cells. -/
theorem fillCells_length (cells : List CalendarDay) (events : List Event) :
    ∀ (i : Nat) (l : List CalendarDay),
      (fillCells cells events i l).length = l.length := by
  intro i l
  induction l generalizing i with
  | nil => rfl
  | cons d rest ih =>
    simp only [fillCells, List.length_cons]
    rw [ih (i + 1)]

/-- Bucketing does not change which cells belong to the current month. -/
theorem fillCells_countP (cells : List CalendarDay) (events : List Event) :
    ∀ (i : Nat) (l : List CalendarDay),
      (fillCells cells events i l).countP (fun d => d.isCurrentMonth) =
        l.countP (fun d => d.isCurrentMonth) := by
  intro i l
  induction l generalizing i with
  | nil => rfl
  | cons d rest ih =>
    simp only [fillCells, List.countP_cons]
    rw [ih (i + 1)]
    rfl

/-- Every bucket produced by the bucketing pass is sorted by start time. -/
theorem fillCells_sorted (cells : List CalendarDay) (events : List Event) :
    ∀ (i : Nat) (l : List CalendarDay),
      ∀ day ∈ fillCells cells events i l,
        day.events.Sorted (fun a b => a.startTime ≤ b.startTime) := by
  intro i l
  induction l generalizing i with
  | nil => intro day h; cases h
  | cons d rest ih =>
    intro day h
    rcases List.mem_cons.mp h with rfl | h
    · exact List.sorted_insertionSort _ _
    · exact ih (i + 1) day h

/-- The month length is at most 31 days. -/
theorem daysInMonth_le_31 (year month : Int) : daysInMonth year month ≤ 31 := by
  unfold daysInMonth daysInMonthIdx
  dsimp only
  split <;> split <;> omega

/-- `getDay` of the first of the month lies in `0..6`. -/
theorem firstDayOfMonth_lt_7 (year month : Int) : firstDayOfMonth year month < 7 := by
  unfold firstDayOfMonth
  dsimp only
  have h1 : (0:Int) ≤ (daysFromCivil (normYM year month).1
      ((normYM year month).2 + 1) 1 + 4).emod 7 :=
    Int.emod_nonneg _ (by decide)
  have h2 : (daysFromCivil (normYM year month).1
      ((normYM year month).2 + 1) 1 + 4).emod 7 < 7 :=
    Int.emod_lt_of_pos _ (by decide)
  omega

/-- The raw grid always holds exactly 42 cells. -/
theorem calendarCells_length (year month : Int) (today : CivilDate) :
    (calendarCells year month today).length = 42 := by
  have h7 := firstDayOfMonth_lt_7 year month
  have h31 := daysInMonth_le_31 year month
  unfold calendarCells
  dsimp only
  set p := (if firstDayOfMonth year month = 0 then 6
    else firstDayOfMonth year month - 1) with hp
  have hple : p ≤ 6 := by
    rw [hp]
    split <;> omega
  set n := daysInMonth year month with hn
  rw [if_pos (show 0 < 42 - (p + n) by omega)]
  simp only [List.length_append, List.length_map, List.length_range]
  omega

/-- Leading filler cells contribute no current-month count. -/
theorem countP_map_leadCell (y m : Int) (p : Nat) (l : List Nat) :
    (l.map (fun i => leadCell y m p i)).countP (fun d => d.isCurrentMonth) = 0 := by
  induction l with
  | nil => rfl
  | cons x xs ih => simp [List.countP_cons, leadCell, ih]

/-- Trailing filler cells contribute no current-month count. -/
theorem countP_map_trailCell (y m : Int) (l : List Nat) :
    (l.map (fun i => trailCell y m i)).countP (fun d => d.isCurrentMonth) = 0 := by
  induction l with
  | nil => rfl
  | cons x xs ih => simp [List.countP_cons, trailCell, ih]

/-- Every mapped current-month cell is counted. -/
theorem countP_map_curCell (y m : Int) (t : CivilDate) (l : List Nat) :
    (l.map (fun i => curCell y m t i)).countP (fun d => d.isCurrentMonth) =
      l.length := by
  induction l with
  | nil => rfl
  | cons x xs ih => simp [List.countP_cons, curCell, ih]

/-- Exactly `daysInMonth` of the raw grid's cells are current-month cells. -/
theorem calendarCells_countP (year month : Int) (today : CivilDate) :
    (calendarCells year month today).countP (fun d => d.isCurrentMonth) =
      daysInMonth year month := by
  unfold calendarCells
  dsimp only
  set p := (if firstDayOfMonth year month = 0 then 6
    else firstDayOfMonth year month - 1) with hp
  set n := daysInMonth year month with hn
  rw [List.countP_append, List.countP_append]
  rw [countP_map_leadCell, countP_map_curCell]
  have htr : List.countP (fun d => d.isCurrentMonth)
      (if 0 < 42 - (p + n) then
        (List.range (42 - (p + n))).map (fun i => trailCell year month i)
      else []) = 0 := by
    split
    · exact countP_map_trailCell year month _
    · rfl
  rw [htr, List.length_range]
  omega

/-! ### C8 — grid shape and per-day ordering -/

/-- C8: for every year, month, today value and event list the built grid
has exactly 42 cells, exactly `daysInMonth year month` of them are
current-month cells, and every cell's bucket is sorted ascending by
start time. -/
theorem calendar_grid_shape_and_sorted (year month : Int) (today : CivilDate)
    (events : List Event) :
    (updatedCalendarDays year month today events).length = 42 ∧
    (updatedCalendarDays year month today events).countP
      (fun d => d.isCurrentMonth) = daysInMonth year month ∧
    ∀ day ∈ updatedCalendarDays year month today events,
      day.events.Sorted (fun a b => a.startTime ≤ b.startTime) := by
  refine ⟨?_, ?_, ?_⟩
  · unfold updatedCalendarDays
    rw [fillCells_length]
    exact calendarCells_length year month today
  · unfold updatedCalendarDays
    rw [fillCells_countP]
    exact calendarCells_countP year month today
  · unfold updatedCalendarDays
    exact fillCells_sorted _ events 0 _

/-- Witness for C8: the grid for January 1970 with one event, and
sortedness of the first cell's bucket. -/
theorem calendar_grid_shape_witness :
    (updatedCalendarDays 1970 0 ⟨1970, 0, 15⟩ [ev0]).length = 42 ∧
    ((updatedCalendarDays 1970 0 ⟨1970, 0, 15⟩ [ev0]).get
      ⟨0, by decide⟩).events.Sorted (fun a b => a.startTime ≤ b.startTime) :=
  ⟨(calendar_grid_shape_and_sorted 1970 0 ⟨1970, 0, 15⟩ [ev0]).1,
    (calendar_grid_shape_and_sorted 1970 0 ⟨1970, 0, 15⟩ [ev0]).2.2 _
      (List.get_mem _ 0 _)⟩

/-! ### C9 — default day selection -/

/-- C9 as stated is false: when today lies in the displayed month but
its bucket is empty, the effect hook falls through to the first
current-month cell's bucket instead of keeping today's (empty) cell
selected. January 1970 with one event on the 1st and today the 15th
selects the event of the 1st, not today's empty bucket. -/
theorem calendar_selection_counterexample :
    ¬ ∀ (year month : Int) (today : CivilDate) (events : List Event),
        (∃ day ∈ calendarCells year month today,
          day.isCurrentMonth = true ∧ day.date = today) →
        selectedDefault year month today events =
          todayCellEvents year month today events := by
  intro hP
  have h := hP 1970 0 ⟨1970, 0, 15⟩ [ev0]
    ⟨curCell 1970 0 ⟨1970, 0, 15⟩ 14, by decide, by decide, by decide⟩
  exact absurd h (by decide)

/-- C9 amended: the default selection is today's cell's bucket only when
today falls within the displayed month AND that bucket is nonempty;
otherwise it is the first current-month cell's bucket (the
`today in month but no events` case also falls back). -/
theorem calendar_selection_amended (year month : Int) (today : CivilDate)
    (events : List Event) :
    (todayCellEvents year month today events ≠ [] →
      selectedDefault year month today events =
        todayCellEvents year month today events) ∧
    (todayCellEvents year month today events = [] →
      selectedDefault year month today events =
        firstCurrentCellEvents year month today events) := by
  constructor
  · intro h
    simp only [selectedDefault]
    rw [if_pos (List.length_pos.mpr h)]
  · intro h
    simp only [selectedDefault]
    rw [h]
    rfl

/-- Witness for the amended C9: today in-month with an empty bucket
falls back to the first current-month cell's bucket. -/
theorem calendar_selection_amended_witness :
    selectedDefault 1970 0 ⟨1970, 0, 15⟩ [ev0] =
      firstCurrentCellEvents 1970 0 ⟨1970, 0, 15⟩ [ev0] :=
  (calendar_selection_amended 1970 0 ⟨1970, 0, 15⟩ [ev0]).2 (by decide)
